import Mathlib

/-!
Shallow embedding of the command-translation and execution pipeline of the
AnyType AI assistant: the MCP translation service (`parseAiResponse`,
`validateMcpCommand`, `translateToMcpCommand`, `translateWithRetry`), the
command validation rule table, and the MCP chat handler
(`shouldProcessAsMcpCommand`, `executeMcpCommand` and its per-action
helpers).  External effects (the LLM call, the Anytype object API) are
modelled as oracles; JavaScript `JSON.parse` is modelled by an executable
JSON parser; thrown exceptions are modelled with `Except`.
-/

/-- Model of a JavaScript JSON value.  Numbers keep their lexeme, since no
claim depends on numeric arithmetic, only on syntax and truthiness. -/
inductive Json where
  | null
  | bool (b : Bool)
  | num (lexeme : String)
  | str (s : String)
  | arr (items : List Json)
  | obj (fields : List (String × Json))
deriving Repr

/-- Checks whether a JSON number lexeme denotes zero: all digits of the
integer and fraction part (before any exponent) are 0. -/
def numIsZero (s : String) : Bool :=
  !((s.data.takeWhile (fun c => c ≠ 'e' && c ≠ 'E')).any
    (fun c => '1' ≤ c && c ≤ '9'))

/-- Tests for the JSON `null` value. -/
def Json.isNull : Json → Bool
  | .null => true
  | _ => false

/-- Whitespace test used to model JavaScript `trim` (ASCII whitespace). -/
def jsIsWs (c : Char) : Bool :=
  c = ' ' || c = '\t' || c = '\n' || c = '\r' || c = Char.ofNat 11 || c = Char.ofNat 12

/-- Model of JavaScript `String.prototype.trim` (executable by kernel
reduction, unlike the iterator-based core version). -/
def jsTrim (s : String) : String :=
  String.mk (((s.data.dropWhile jsIsWs).reverse.dropWhile jsIsWs).reverse)

/-- Lower-cases one ASCII character. -/
def lowerChar (c : Char) : Char :=
  if 'A' ≤ c && c ≤ 'Z' then Char.ofNat (c.toNat + 32) else c

/-- Model of JavaScript `String.prototype.toLowerCase` (ASCII). -/
def jsToLower (s : String) : String :=
  String.mk (s.data.map lowerChar)

/-- JavaScript truthiness of a JSON value. -/
def jsTruthy : Json → Bool
  | .null => false
  | .bool b => b
  | .num l => !numIsZero l
  | .str s => s ≠ ""
  | .arr _ => true
  | .obj _ => true

/-- JavaScript property read `v[key]` on a parsed JSON value: a lookup for
objects, an index lookup for arrays, `undefined` (`none`) otherwise. -/
def jsGet (v : Json) (key : String) : Option Json :=
  match v with
  | .obj fields => (fields.find? (fun kv => kv.1 = key)).map (·.2)
  | .arr items =>
    (items.enum.find? (fun iv => Nat.repr iv.1 = key)).map (·.2)
  | _ => none

/-- String coercion used by JavaScript template literals, approximated for
the message positions the code interpolates values into. -/
def jsDisplay : Json → String
  | .null => "null"
  | .bool true => "true"
  | .bool false => "false"
  | .num l => l
  | .str s => s
  | .arr items =>
    String.intercalate "," (items.attach.map (fun x => jsDisplay x.1))
  | .obj _ => "[object Object]"
termination_by j => sizeOf j
decreasing_by
  have := List.sizeOf_lt_of_mem x.2
  simp only [Json.arr.sizeOf_spec]
  omega

/-- Inserts a parsed object member the way `JSON.parse` does: a duplicate
key overwrites the earlier value in place. -/
def insertField (fields : List (String × Json)) (k : String) (v : Json) :
    List (String × Json) :=
  if fields.any (fun kv => kv.1 = k) then
    fields.map (fun kv => if kv.1 = k then (k, v) else kv)
  else
    fields ++ [(k, v)]

/-- Skips JSON whitespace. -/
def skipWs : List Char → List Char
  | c :: cs =>
    if c = ' ' || c = '\t' || c = '\n' || c = '\r' then skipWs cs else c :: cs
  | [] => []

/-- Hexadecimal digit value, for `\u` escapes (code-point arithmetic:
48-57 are the digits, 97-102 lower-case a-f, 65-70 upper-case A-F). -/
def hexVal (c : Char) : Option Nat :=
  let n := c.toNat
  if 48 ≤ n && n ≤ 57 then some (n - 48)
  else if 97 ≤ n && n ≤ 102 then some (n - 87)
  else if 65 ≤ n && n ≤ 70 then some (n - 55)
  else none

/-- Parses the remainder of a JSON string literal (the opening quote has
been consumed), handling the standard escapes. -/
def parseStringRest : Nat → List Char → List Char → Option (String × List Char)
  | 0, _, _ => none
  | _, _, [] => none
  | fuel + 1, acc, c :: cs =>
    if c = '"' then some (String.mk acc.reverse, cs)
    else if c = '\\' then
      match cs with
      | [] => none
      | e :: cs' =>
        if e = '"' then parseStringRest fuel ('"' :: acc) cs'
        else if e = '\\' then parseStringRest fuel ('\\' :: acc) cs'
        else if e = '/' then parseStringRest fuel ('/' :: acc) cs'
        else if e = 'b' then parseStringRest fuel (Char.ofNat 8 :: acc) cs'
        else if e = 'f' then parseStringRest fuel (Char.ofNat 12 :: acc) cs'
        else if e = 'n' then parseStringRest fuel ('\n' :: acc) cs'
        else if e = 'r' then parseStringRest fuel ('\r' :: acc) cs'
        else if e = 't' then parseStringRest fuel ('\t' :: acc) cs'
        else if e = 'u' then
          match cs' with
          | h1 :: h2 :: h3 :: h4 :: cs'' =>
            match hexVal h1, hexVal h2, hexVal h3, hexVal h4 with
            | some a, some b, some c3, some d =>
              parseStringRest fuel
                (Char.ofNat (((a * 16 + b) * 16 + c3) * 16 + d) :: acc) cs''
            | _, _, _, _ => none
          | _ => none
        else none
    else if c.toNat < 32 then none
    else parseStringRest fuel (c :: acc) cs

/-- Decimal digit test. -/
def isDigit (c : Char) : Bool := '0' ≤ c && c ≤ '9'

/-- Parses a JSON number starting at the head of the input, returning its
lexeme and the rest. -/
def parseNumber (cs : List Char) : Option (String × List Char) :=
  let (signPart, afterSign) :=
    match cs with
    | '-' :: rest => (['-'], rest)
    | _ => ([], cs)
  match afterSign with
  | [] => none
  | d :: _ =>
    if !isDigit d then none
    else
      let (intPart, afterInt) :=
        if d = '0' then ([d], afterSign.tail)
        else (afterSign.takeWhile isDigit, afterSign.dropWhile isDigit)
      let (fracPart, afterFrac) :=
        match afterInt with
        | '.' :: rest =>
          let ds := rest.takeWhile isDigit
          if ds = [] then ([], afterInt)
          else ('.' :: ds, rest.dropWhile isDigit)
        | _ => ([], afterInt)
      if fracPart = [] && (match afterInt with | '.' :: _ => true | _ => false) then
        none
      else
        let (expPart, afterExp) :=
          match afterFrac with
          | e :: rest =>
            if e = 'e' || e = 'E' then
              let (sgn, rest') :=
                match rest with
                | s :: r => if s = '+' || s = '-' then ([s], r) else ([], rest)
                | [] => ([], rest)
              let ds := rest'.takeWhile isDigit
              if ds = [] then ([], afterFrac)
              else (e :: (sgn ++ ds), rest'.dropWhile isDigit)
            else ([], afterFrac)
          | [] => ([], afterFrac)
        if (match afterFrac with
            | e :: _ => (e = 'e' || e = 'E') && expPart = []
            | [] => false) then
          none
        else
          some (String.mk (signPart ++ intPart ++ fracPart ++ expPart), afterExp)

mutual

/-- Parses one JSON value from the input (fuel-based recursion; the fuel is
at least the input length so well-formed input never exhausts it). -/
def parseValue : Nat → List Char → Option (Json × List Char)
  | 0, _ => none
  | fuel + 1, cs =>
    match skipWs cs with
    | [] => none
    | c :: rest =>
      if c = '"' then
        (parseStringRest (rest.length + 1) [] rest).map
          (fun sr => (Json.str sr.1, sr.2))
      else if c = '{' then parseMembers fuel [] rest
      else if c = '[' then parseItems fuel [] rest
      else
        match c :: rest with
        | 't' :: 'r' :: 'u' :: 'e' :: r => some (.bool true, r)
        | 'f' :: 'a' :: 'l' :: 's' :: 'e' :: r => some (.bool false, r)
        | 'n' :: 'u' :: 'l' :: 'l' :: r => some (.null, r)
        | input => (parseNumber input).map (fun nr => (Json.num nr.1, nr.2))

/-- Parses object members after the opening brace (or after a comma), with
the members accumulated so far. -/
def parseMembers : Nat → List (String × Json) → List Char →
    Option (Json × List Char)
  | 0, _, _ => none
  | fuel + 1, acc, cs =>
    match skipWs cs with
    | [] => none
    | c :: rest =>
      if c = '}' && acc.isEmpty then some (.obj [], rest)
      else if c = '"' then
        match parseStringRest (rest.length + 1) [] rest with
        | none => none
        | some (key, afterKey) =>
          match skipWs afterKey with
          | ':' :: afterColon =>
            match parseValue fuel afterColon with
            | none => none
            | some (v, afterVal) =>
              let acc' := insertField acc key v
              match skipWs afterVal with
              | ',' :: afterComma => parseMembers fuel acc' afterComma
              | '}' :: afterBrace => some (.obj acc', afterBrace)
              | _ => none
          | _ => none
      else none

/-- Parses array items after the opening bracket (or after a comma), with
the items accumulated so far in reverse. -/
def parseItems : Nat → List Json → List Char → Option (Json × List Char)
  | 0, _, _ => none
  | fuel + 1, acc, cs =>
    match skipWs cs with
    | [] => none
    | c :: rest =>
      if c = ']' && acc.isEmpty then some (.arr [], rest)
      else
        match parseValue fuel (c :: rest) with
        | none => none
        | some (v, afterVal) =>
          match skipWs afterVal with
          | ',' :: afterComma => parseItems fuel (v :: acc) afterComma
          | ']' :: afterBracket => some (.arr (v :: acc).reverse, afterBracket)
          | _ => none

end

/-- Model of JavaScript `JSON.parse` restricted to returning `none` where
the original throws `SyntaxError` (trailing garbage included). -/
def jsonParse (s : String) : Option Json :=
  match parseValue (s.length + 1) s.data with
  | none => none
  | some (v, rest) => if skipWs rest = [] then some v else none

/-- Takes the prefix of a character list up to and including the last
closing brace. -/
def upToLastRBrace (cs : List Char) : List Char :=
  (cs.reverse.dropWhile (fun c => c ≠ '}')).reverse

/-- Model of `response.match(/\x7b[\s\S]*\x7d/)`: the regex matches from
the first opening brace that has some closing brace after it, greedily up
to the last closing brace of the string; `none` when no such pair exists. -/
def extractJsonSpan : List Char → Option (List Char)
  | [] => none
  | c :: rest =>
    if c = '{' && rest.contains '}' then some (c :: upToLastRBrace rest)
    else extractJsonSpan rest

/-- Model of an MCP command as produced by `parseAiResponse`: the `action`
and `parameters` fields are whatever truthy JSON values the model sent. -/
structure McpCommand where
  action : Json
  parameters : Json
  description : Json
deriving Repr

/-- Embedding of `parseAiResponse` (mcpTranslationService): find the JSON
span with the greedy brace regex, `JSON.parse` it, require truthy `action`
and `parameters`, and default the description.  Every failure (no span,
parse error, bad structure) yields `none`; nothing is thrown. -/
def parseAiResponse (response : String) : Option McpCommand :=
  if jsTrim response = "" then none
  else
    match extractJsonSpan response.data with
    | none => none
    | some span =>
      match jsonParse (String.mk span) with
      | none => none
      | some parsed =>
        match jsGet parsed "action", jsGet parsed "parameters" with
        | some action, some params =>
          if jsTruthy action && jsTruthy params then
            some
              { action := action
                parameters := params
                description :=
                  match jsGet parsed "description" with
                  | some d =>
                    if jsTruthy d then d else .str "No description provided"
                  | none => .str "No description provided" }
          else none
        | _, _ => none

/-- Validation rule set for one action, as in `COMMAND_VALIDATION_RULES`
(mcpTranslation prompts module).  `maxLength` is empty when the source rule
object has no `maxLength` field. -/
structure ValidationRules where
  required : List String
  optional : List String
  maxLength : List (String × Nat)
deriving Repr

/-- Embedding of the fixed `COMMAND_VALIDATION_RULES` table. -/
def COMMAND_VALIDATION_RULES : List (String × ValidationRules) :=
  [("CREATE_OBJECT",
    { required := ["name", "type_key"]
      optional := ["body", "icon", "properties", "template_id"]
      maxLength := [("name", 256), ("body", 10000)] }),
   ("UPDATE_OBJECT",
    { required := ["object_id"]
      optional := ["name", "body", "properties"]
      maxLength := [("name", 256), ("body", 10000)] }),
   ("DELETE_OBJECT",
    { required := ["object_id"], optional := [], maxLength := [] }),
   ("SEARCH_OBJECTS",
    { required := ["query"]
      optional := ["space_id"]
      maxLength := [("query", 1000)] }),
   ("LIST_OBJECTS",
    { required := [], optional := ["space_id", "type_filter"], maxLength := [] }),
   ("ADD_RELATION",
    { required := ["source_object_id", "target_object_id", "relation_type"]
      optional := [], maxLength := [] }),
   ("GET_OBJECT",
    { required := ["object_id"], optional := ["space_id"], maxLength := [] })]

/-- Rule lookup `COMMAND_VALIDATION_RULES[command.action]`: only a string
action can name a rule set (a non-string stringifies and matches no key). -/
def lookupRules (action : Json) : Option ValidationRules :=
  match action with
  | .str s => (COMMAND_VALIDATION_RULES.find? (fun kv => kv.1 = s)).map (·.2)
  | _ => none

/-- Result shape of `validateMcpCommand`. -/
structure ValidationResult where
  valid : Bool
  error : Option String
deriving Repr, DecidableEq

/-- Key membership, modelling the JavaScript `in` operator on an object. -/
def hasKey (fields : List (String × Json)) (k : String) : Bool :=
  (fields.find? (fun kv => kv.1 = k)).isSome

/-- Tests whether one parameter entry is an empty or all-whitespace
string. -/
def isEmptyStrParam (kv : String × Json) : Bool :=
  match kv.2 with
  | .str v => jsTrim v = ""
  | _ => false

/-- Tests whether the parameter named by a `maxLength` entry is a string
exceeding that declared bound. -/
def exceedsMax (fields : List (String × Json)) (pm : String × Nat) : Bool :=
  match fields.find? (fun kv => kv.1 = pm.1) with
  | some (_, .str v) => v.length > pm.2
  | _ => false

/-- Validation body over the parameter object's entries, in the order the
source loops run: required keys first, then the emptiness check over the
entries, then the declared maximum lengths. -/
def validateFields (rules : ValidationRules) (fields : List (String × Json)) :
    ValidationResult :=
  match rules.required.find? (fun r => !hasKey fields r) with
  | some r => { valid := false, error := some ("Missing required parameter: " ++ r) }
  | none =>
    match fields.find? isEmptyStrParam with
    | some kv =>
      { valid := false, error := some ("Parameter " ++ kv.1 ++ " cannot be empty") }
    | none =>
      match rules.maxLength.find? (exceedsMax fields) with
      | some pm =>
        { valid := false
          error := some ("Parameter " ++ pm.1 ++ " exceeds maximum length of "
            ++ Nat.repr pm.2) }
      | none => { valid := true, error := none }

/-- Views a parameters value the way the validator's loops see it:
`Object.entries` of an array is its indexed items, of a string its indexed
characters, of other primitives the empty list. -/
def entriesOf : Json → List (String × Json)
  | .obj fields => fields
  | .arr items => items.enum.map (fun iv => (Nat.repr iv.1, iv.2))
  | .str s => s.data.enum.map (fun ic => (Nat.repr ic.1, Json.str (String.mk [ic.2])))
  | _ => []

/-- Embedding of `validateMcpCommand`.  The `Except` layer models the
`TypeError` the source throws when `parameters` is a primitive probed with
the `in` operator (required list non-empty) or `null` (also thrown from
`Object.entries`); those exceptions are caught by the caller. -/
def validateMcpCommand (command : McpCommand) : Except String ValidationResult :=
  match lookupRules command.action with
  | none =>
    .ok { valid := false
          error := some ("Unknown action: " ++ jsDisplay command.action) }
  | some rules =>
    match command.parameters with
    | .obj fields => .ok (validateFields rules fields)
    | .arr items => .ok (validateFields rules (entriesOf (.arr items)))
    | .null => .error "TypeError: Cannot convert undefined or null to object"
    | prim =>
      if rules.required.isEmpty then .ok (validateFields rules (entriesOf prim))
      else .error "TypeError: Cannot use in operator to search in primitive"

/-- Tests whether the first list is a prefix of the second. -/
def startsWithChars : List Char → List Char → Bool
  | [], _ => true
  | _ :: _, [] => false
  | n :: ns, h :: hs => n = h && startsWithChars ns hs

/-- Tests whether the needle occurs contiguously in the haystack. -/
def hasInfixChars (needle : List Char) : List Char → Bool
  | [] => needle.isEmpty
  | h :: hs => startsWithChars needle (h :: hs) || hasInfixChars needle hs

/-- JavaScript `String.prototype.includes`. -/
def strContains (s sub : String) : Bool :=
  hasInfixChars sub.data s.data

/-- Outcome of the raced AI call `callAiWithTimeout`: either the reply
text, or a thrown error's message (timeout, rate limit, transport...). -/
inductive AiOutcome where
  | ok (response : String)
  | err (message : String)
deriving Repr

/-- Shape of a `TranslationResult`. -/
structure TranslationResult where
  success : Bool
  error : Option String := none
  command : Option McpCommand := none
  rawResponse : Option String := none

/-- Error classification in the `catch` block of `translateToMcpCommand`:
timeout first, then quota or rate limit, then a generic wrapper. -/
def classifyCaughtError (errorMessage : String) : TranslationResult :=
  if strContains errorMessage "timeout" then
    { success := false, error := some "AI service timeout. Please try again." }
  else if strContains errorMessage "quota" || strContains errorMessage "rate_limit" then
    { success := false
      error := some "AI service rate limit exceeded. Please try again later." }
  else
    { success := false, error := some ("Translation failed: " ++ errorMessage) }

/-- Run of one translation attempt: the result together with how many AI
network calls were made (0 or 1). -/
structure TranslateRun where
  result : TranslationResult
  aiCalls : Nat

/-- Embedding of `translateToMcpCommand`.  The AI call is an oracle
(`ai`): the prompt construction does not affect control flow, and the
raced call either returns the reply text or throws. -/
def translateToMcpCommand (userCommand aiProvider apiKey model : String)
    (ai : AiOutcome) : TranslateRun :=
  if jsTrim userCommand = "" then
    { result := { success := false, error := some "Please provide a command to translate" }
      aiCalls := 0 }
  else if aiProvider = "" ∨ apiKey = "" ∨ model = "" then
    { result := { success := false, error := some "AI provider configuration is incomplete" }
      aiCalls := 0 }
  else
    match ai with
    | .err message => { result := classifyCaughtError message, aiCalls := 1 }
    | .ok response =>
      match parseAiResponse response with
      | none =>
        { result := { success := false
                      error := some "Failed to parse AI response as valid MCP command"
                      rawResponse := some response }
          aiCalls := 1 }
      | some parsedCommand =>
        match validateMcpCommand parsedCommand with
        | .error thrown => { result := classifyCaughtError thrown, aiCalls := 1 }
        | .ok validationResult =>
          if validationResult.valid then
            { result := { success := true, command := some parsedCommand }
              aiCalls := 1 }
          else
            { result := { success := false
                          error := some ("Validation failed: "
                            ++ validationResult.error.getD "undefined")
                          command := some parsedCommand }
              aiCalls := 1 }

/-- Retryability test of `translateWithRetry`: validation and parse
failures are final. -/
def nonRetryableError (result : TranslationResult) : Bool :=
  match result.error with
  | some e => strContains e "Validation failed" || strContains e "Failed to parse"
  | none => false

/-- Run of the whole retry loop: final result, total attempts, total AI
network calls, and the backoff delays actually awaited, in milliseconds. -/
structure RetryRun where
  result : TranslationResult
  attempts : Nat
  aiCalls : Nat
  delaysMs : List Nat

/-- Loop body of `translateWithRetry`: `attempt` is the current 0-based
attempt index and `remaining` the number of attempts still allowed after
this one (`retries - attempt`, so `attempt < retries` iff it is nonzero). -/
def retryLoop (step : Nat → TranslateRun) (attempt remaining : Nat) : RetryRun :=
  let run := step attempt
  if run.result.success then
    { result := run.result, attempts := 1, aiCalls := run.aiCalls, delaysMs := [] }
  else if nonRetryableError run.result then
    { result := run.result, attempts := 1, aiCalls := run.aiCalls, delaysMs := [] }
  else
    match remaining with
    | 0 =>
      { result := run.result, attempts := 1, aiCalls := run.aiCalls, delaysMs := [] }
    | rem + 1 =>
      let rest := retryLoop step (attempt + 1) rem
      { result := rest.result
        attempts := rest.attempts + 1
        aiCalls := run.aiCalls + rest.aiCalls
        delaysMs := 2 ^ attempt * 1000 :: rest.delaysMs }

/-- Embedding of `translateWithRetry`: run `translateToMcpCommand` up to
`retries + 1` times, skipping retries for validation and parse failures,
sleeping `2 ^ attempt * 1000` milliseconds between attempts.  The AI
oracle is indexed by attempt number. -/
def translateWithRetry (userCommand aiProvider apiKey model : String)
    (ai : Nat → AiOutcome) (retries : Nat) : RetryRun :=
  retryLoop (fun n => translateToMcpCommand userCommand aiProvider apiKey model (ai n))
    0 retries

/-- Data payload of a successful execution, by action. -/
inductive ExecData (α : Type) where
  | obj (o : α)
  | flag (b : Bool)
  | msg (message : String)
  | search (query : Json) (resultCount : Nat) (results : List α)
  | list (objectCount : Nat) (objects : List α)

/-- Shape of the executor's outcome (`{success, data?, error?}`). -/
structure ExecutionOutcome (α : Type) where
  success : Bool
  data : Option (ExecData α) := none
  error : Option String := none

/-- Oracle for the Anytype object API calls the executor makes; `Except`
models a thrown/rejected call, the payload the resolved value. -/
structure AnytypeApi (α : Type) where
  validate : Except String Bool
  createObject : Except String (Option α)
  updateObject : Except String Bool
  deleteObject : Except String Bool
  getObject : Except String (Option α)
  searchObjects : Except String (List α)
  fetchObjects : Except String (List α)

/-- Truthiness of the `currentSpaceId` argument (`undefined` and the empty
string are falsy). -/
def spaceIdTruthy : Option String → Bool
  | none => false
  | some s => s ≠ ""

/-- Truthiness of a destructured parameter (`undefined` when absent). -/
def truthyParam (params : Json) (key : String) : Bool :=
  match jsGet params key with
  | some v => jsTruthy v
  | none => false

/-- Failure outcome helper. -/
def execFail {α : Type} (message : String) : ExecutionOutcome α :=
  { success := false, error := some message }

/-- Embedding of `executCreateObject` [sic]: returns the outcome (inside
`Except` for a thrown API call) and the number of object-API operation
calls made. -/
def execCreateObject {α : Type} (command : McpCommand)
    (spaceId : Option String) (api : AnytypeApi α) :
    Except String (ExecutionOutcome α) × Nat :=
  if command.parameters.isNull then
    (.error "TypeError: Cannot destructure property of null", 0)
  else if !(truthyParam command.parameters "name"
      && truthyParam command.parameters "type_key") then
    (.ok (execFail "Object name and type are required"), 0)
  else if !spaceIdTruthy spaceId then
    (.ok (execFail "No space selected. Please select a space first."), 0)
  else
    match api.createObject with
    | .error m => (.error m, 1)
    | .ok none => (.ok (execFail "Failed to create object"), 1)
    | .ok (some o) => (.ok { success := true, data := some (.obj o) }, 1)

/-- Embedding of `executeUpdateObject`. -/
def execUpdateObject {α : Type} (command : McpCommand)
    (spaceId : Option String) (api : AnytypeApi α) :
    Except String (ExecutionOutcome α) × Nat :=
  if command.parameters.isNull then
    (.error "TypeError: Cannot destructure property of null", 0)
  else if !truthyParam command.parameters "object_id" then
    (.ok (execFail "Object ID is required"), 0)
  else if !spaceIdTruthy spaceId then
    (.ok (execFail "No space selected"), 0)
  else
    match api.updateObject with
    | .error m => (.error m, 1)
    | .ok false => (.ok (execFail "Failed to update object"), 1)
    | .ok true => (.ok { success := true, data := some (.flag true) }, 1)

/-- Embedding of `executeDeleteObject`. -/
def execDeleteObject {α : Type} (command : McpCommand)
    (spaceId : Option String) (api : AnytypeApi α) :
    Except String (ExecutionOutcome α) × Nat :=
  if command.parameters.isNull then
    (.error "TypeError: Cannot destructure property of null", 0)
  else if !truthyParam command.parameters "object_id" then
    (.ok (execFail "Object ID is required"), 0)
  else if !spaceIdTruthy spaceId then
    (.ok (execFail "No space selected"), 0)
  else
    match api.deleteObject with
    | .error m => (.error m, 1)
    | .ok false => (.ok (execFail "Failed to delete object"), 1)
    | .ok true =>
      (.ok { success := true, data := some (.msg "Object deleted successfully") }, 1)

/-- Embedding of `executeSearchObjects`. -/
def execSearchObjects {α : Type} (command : McpCommand)
    (spaceId : Option String) (api : AnytypeApi α) :
    Except String (ExecutionOutcome α) × Nat :=
  if command.parameters.isNull then
    (.error "TypeError: Cannot destructure property of null", 0)
  else if !truthyParam command.parameters "query" then
    (.ok (execFail "Search query is required"), 0)
  else if !spaceIdTruthy spaceId then
    (.ok (execFail "No space selected"), 0)
  else
    match api.searchObjects with
    | .error m => (.error m, 1)
    | .ok results =>
      (.ok { success := true
             data := some (.search ((jsGet command.parameters "query").getD .null)
               results.length results) }, 1)

/-- Embedding of `executeListObjects`. -/
def execListObjects {α : Type} (_command : McpCommand)
    (spaceId : Option String) (api : AnytypeApi α) :
    Except String (ExecutionOutcome α) × Nat :=
  if !spaceIdTruthy spaceId then
    (.ok (execFail "No space selected"), 0)
  else
    match api.fetchObjects with
    | .error m => (.error m, 1)
    | .ok objects =>
      (.ok { success := true, data := some (.list objects.length objects) }, 1)

/-- Embedding of `executeGetObject`. -/
def execGetObject {α : Type} (command : McpCommand)
    (spaceId : Option String) (api : AnytypeApi α) :
    Except String (ExecutionOutcome α) × Nat :=
  if command.parameters.isNull then
    (.error "TypeError: Cannot destructure property of null", 0)
  else if !truthyParam command.parameters "object_id" then
    (.ok (execFail "Object ID is required"), 0)
  else if !spaceIdTruthy spaceId then
    (.ok (execFail "No space selected"), 0)
  else
    match api.getObject with
    | .error m => (.error m, 1)
    | .ok none => (.ok (execFail "Object not found"), 1)
    | .ok (some o) => (.ok { success := true, data := some (.obj o) }, 1)

/-- Count of calls the executor made: the reachability probe and the
per-action object-API operation calls. -/
structure CallTrace where
  probeCalls : Nat
  apiCalls : Nat
deriving Repr, DecidableEq

/-- Converts the body's `Except` into the caught outcome of the
executor's surrounding `try`/`catch`. -/
def catchInto {α : Type} : Except String (ExecutionOutcome α) →
    ExecutionOutcome α
  | .ok o => o
  | .error m => { success := false, error := some m }

/-- Embedding of `executeMcpCommand` (mcpChatHandler): endpoint check,
reachability probe, dispatch by action, whole-body `try`/`catch`. -/
def executeMcpCommand {α : Type} (command : McpCommand)
    (anytypeEndpoint : String) (_anytypeApiKey : Option String)
    (currentSpaceId : Option String) (api : AnytypeApi α) :
    ExecutionOutcome α × CallTrace :=
  if anytypeEndpoint = "" then
    (execFail "Anytype API endpoint is not configured", ⟨0, 0⟩)
  else
    match api.validate with
    | .error m => ({ success := false, error := some m }, ⟨1, 0⟩)
    | .ok false =>
      (execFail "Cannot connect to Anytype API. Please check your configuration.",
        ⟨1, 0⟩)
    | .ok true =>
      match command.action with
      | .str "CREATE_OBJECT" =>
        (catchInto (execCreateObject command currentSpaceId api).1,
          ⟨1, (execCreateObject command currentSpaceId api).2⟩)
      | .str "UPDATE_OBJECT" =>
        (catchInto (execUpdateObject command currentSpaceId api).1,
          ⟨1, (execUpdateObject command currentSpaceId api).2⟩)
      | .str "DELETE_OBJECT" =>
        (catchInto (execDeleteObject command currentSpaceId api).1,
          ⟨1, (execDeleteObject command currentSpaceId api).2⟩)
      | .str "SEARCH_OBJECTS" =>
        (catchInto (execSearchObjects command currentSpaceId api).1,
          ⟨1, (execSearchObjects command currentSpaceId api).2⟩)
      | .str "LIST_OBJECTS" =>
        (catchInto (execListObjects command currentSpaceId api).1,
          ⟨1, (execListObjects command currentSpaceId api).2⟩)
      | .str "GET_OBJECT" =>
        (catchInto (execGetObject command currentSpaceId api).1,
          ⟨1, (execGetObject command currentSpaceId api).2⟩)
      | .str "ADD_RELATION" =>
        (execFail "ADD_RELATION operation is not yet implemented", ⟨1, 0⟩)
      | other =>
        (execFail ("Unknown operation: " ++ jsDisplay other), ⟨1, 0⟩)

/-- Keyword list of the command classifier. -/
def commandKeywords : List String :=
  ["create", "add", "new", "make", "update", "modify", "change", "delete",
   "remove", "search", "find", "show", "list", "get", "link", "organize"]

/-- Embedding of `shouldProcessAsMcpCommand` (mcpChatHandler). -/
def shouldProcessAsMcpCommand (message : String) : Bool :=
  let lowerMessage := jsTrim (jsToLower message)
  if commandKeywords.any (fun keyword => startsWithChars keyword.data lowerMessage.data) then
    true
  else if strContains lowerMessage "create a"
      || strContains lowerMessage "add a"
      || strContains lowerMessage "make a"
      || strContains lowerMessage "new "
      || strContains lowerMessage "search for"
      || strContains lowerMessage "find "
      || strContains lowerMessage "list all"
      || strContains lowerMessage "show all" then
    true
  else false

/-- Fixed infix phrase list, as the spec describes it. -/
def commandPhrases : List String :=
  ["create a", "add a", "make a", "new ", "search for", "find ", "list all",
   "show all"]

/-- Classifier as the spec words it (for the refinement statement of the
classifier claim): the lower-cased, trimmed text starts with one of the
fixed command verbs or contains one of the fixed infix phrases. -/
def specClassifier (message : String) : Bool :=
  commandKeywords.any (fun k => startsWithChars k.data (jsTrim (jsToLower message)).data)
    || commandPhrases.any (fun p => strContains (jsTrim (jsToLower message)) p)

/-- Exclusivity predicate on execution outcomes: a successful outcome has
no error, a failed one has an error message and no data. -/
def outcomeExclusive {α : Type} (o : ExecutionOutcome α) : Prop :=
  (o.success = true → o.error = none) ∧
  (o.success = false → o.data = none ∧ ∃ m, o.error = some m)

theorem outcomeExclusive_fail {α : Type} (m : String) :
    outcomeExclusive (α := α) (execFail m) := by
  refine ⟨fun h => by simp [execFail] at h, fun _ => ⟨rfl, m, rfl⟩⟩

theorem outcomeExclusive_catch_create {α : Type} (command : McpCommand)
    (spaceId : Option String) (api : AnytypeApi α) :
    outcomeExclusive (catchInto (execCreateObject command spaceId api).1) := by
  unfold execCreateObject
  rcases api.createObject with m | (_ | o) <;> split_ifs <;>
    first
      | exact outcomeExclusive_fail _
      | exact ⟨fun h => by simp [catchInto] at h, fun _ => ⟨rfl, _, rfl⟩⟩
      | exact ⟨fun _ => rfl, fun h => by simp [catchInto] at h⟩

theorem outcomeExclusive_catch_update {α : Type} (command : McpCommand)
    (spaceId : Option String) (api : AnytypeApi α) :
    outcomeExclusive (catchInto (execUpdateObject command spaceId api).1) := by
  unfold execUpdateObject
  rcases api.updateObject with m | (_ | _) <;> split_ifs <;>
    first
      | exact outcomeExclusive_fail _
      | exact ⟨fun h => by simp [catchInto] at h, fun _ => ⟨rfl, _, rfl⟩⟩
      | exact ⟨fun _ => rfl, fun h => by simp [catchInto] at h⟩

theorem outcomeExclusive_catch_delete {α : Type} (command : McpCommand)
    (spaceId : Option String) (api : AnytypeApi α) :
    outcomeExclusive (catchInto (execDeleteObject command spaceId api).1) := by
  unfold execDeleteObject
  rcases api.deleteObject with m | (_ | _) <;> split_ifs <;>
    first
      | exact outcomeExclusive_fail _
      | exact ⟨fun h => by simp [catchInto] at h, fun _ => ⟨rfl, _, rfl⟩⟩
      | exact ⟨fun _ => rfl, fun h => by simp [catchInto] at h⟩

theorem outcomeExclusive_catch_search {α : Type} (command : McpCommand)
    (spaceId : Option String) (api : AnytypeApi α) :
    outcomeExclusive (catchInto (execSearchObjects command spaceId api).1) := by
  unfold execSearchObjects
  rcases api.searchObjects with m | results <;> split_ifs <;>
    first
      | exact outcomeExclusive_fail _
      | exact ⟨fun h => by simp [catchInto] at h, fun _ => ⟨rfl, _, rfl⟩⟩
      | exact ⟨fun _ => rfl, fun h => by simp [catchInto] at h⟩

theorem outcomeExclusive_catch_list {α : Type} (command : McpCommand)
    (spaceId : Option String) (api : AnytypeApi α) :
    outcomeExclusive (catchInto (execListObjects command spaceId api).1) := by
  unfold execListObjects
  rcases api.fetchObjects with m | objects <;> split_ifs <;>
    first
      | exact outcomeExclusive_fail _
      | exact ⟨fun h => by simp [catchInto] at h, fun _ => ⟨rfl, _, rfl⟩⟩
      | exact ⟨fun _ => rfl, fun h => by simp [catchInto] at h⟩

theorem outcomeExclusive_catch_get {α : Type} (command : McpCommand)
    (spaceId : Option String) (api : AnytypeApi α) :
    outcomeExclusive (catchInto (execGetObject command spaceId api).1) := by
  unfold execGetObject
  rcases api.getObject with m | (_ | o) <;> split_ifs <;>
    first
      | exact outcomeExclusive_fail _
      | exact ⟨fun h => by simp [catchInto] at h, fun _ => ⟨rfl, _, rfl⟩⟩
      | exact ⟨fun _ => rfl, fun h => by simp [catchInto] at h⟩

/-- C7: every `ExecutionOutcome` the Executor returns populates exactly one
of `data`/`error` — success implies no error, failure implies an error
message and no data — and an exception thrown at any step (modelled by an
`Except.error` from an API oracle) is caught and surfaced as
`{success := false, error := message}` rather than escaping. -/
theorem C7_outcome_exclusivity {α : Type} (command : McpCommand)
    (endpoint : String) (apiKey : Option String) (spaceId : Option String)
    (api : AnytypeApi α) :
    (((executeMcpCommand command endpoint apiKey spaceId api).1.success = true →
        (executeMcpCommand command endpoint apiKey spaceId api).1.error = none) ∧
      ((executeMcpCommand command endpoint apiKey spaceId api).1.success = false →
        (executeMcpCommand command endpoint apiKey spaceId api).1.data = none ∧
          ∃ m, (executeMcpCommand command endpoint apiKey spaceId api).1.error = some m)) ∧
    (∀ m, endpoint ≠ "" → api.validate = .error m →
      (executeMcpCommand command endpoint apiKey spaceId api).1 =
        { success := false, data := none, error := some m }) := by
  constructor
  · show outcomeExclusive _
    unfold executeMcpCommand
    split_ifs
    · exact outcomeExclusive_fail _
    · cases hv : api.validate with
      | error m =>
        exact ⟨fun h => by simp at h, fun _ => ⟨rfl, m, rfl⟩⟩
      | ok b =>
        cases b with
        | false => exact outcomeExclusive_fail _
        | true =>
          rcases command with ⟨action, params, desc⟩
          cases action with
          | null => exact outcomeExclusive_fail _
          | bool b => exact outcomeExclusive_fail _
          | num l => exact outcomeExclusive_fail _
          | arr items => exact outcomeExclusive_fail _
          | obj fields => exact outcomeExclusive_fail _
          | str s =>
            simp only
            split
            · exact outcomeExclusive_catch_create _ _ _
            · exact outcomeExclusive_catch_update _ _ _
            · exact outcomeExclusive_catch_delete _ _ _
            · exact outcomeExclusive_catch_search _ _ _
            · exact outcomeExclusive_catch_list _ _ _
            · exact outcomeExclusive_catch_get _ _ _
            · exact outcomeExclusive_fail _
            · exact outcomeExclusive_fail _
  · intro m hend hv
    unfold executeMcpCommand
    rw [if_neg hend, hv]

/-- C7 witness: at a concrete command and an API oracle whose probe
throws, the outcome is the caught failure with no data and an error. -/
theorem C7_outcome_exclusivity_witness :
    (executeMcpCommand (α := Nat) ⟨.str "LIST_OBJECTS", .obj [], .str "d"⟩
        "http://x" none none
        ⟨.error "boom", .ok none, .ok true, .ok true, .ok none, .ok [], .ok []⟩).1 =
      { success := false, data := none, error := some "boom" } ∧
    ((executeMcpCommand (α := Nat) ⟨.str "LIST_OBJECTS", .obj [], .str "d"⟩
        "http://x" none none
        ⟨.error "boom", .ok none, .ok true, .ok true, .ok none, .ok [], .ok []⟩).1.data = none ∧
      ∃ m, (executeMcpCommand (α := Nat) ⟨.str "LIST_OBJECTS", .obj [], .str "d"⟩
        "http://x" none none
        ⟨.error "boom", .ok none, .ok true, .ok true, .ok none, .ok [], .ok []⟩).1.error = some m) :=
  ⟨(C7_outcome_exclusivity ⟨.str "LIST_OBJECTS", .obj [], .str "d"⟩ "http://x" none none
      ⟨.error "boom", .ok none, .ok true, .ok true, .ok none, .ok [], .ok []⟩).2 "boom"
      (by decide) rfl,
   (C7_outcome_exclusivity ⟨.str "LIST_OBJECTS", .obj [], .str "d"⟩ "http://x" none none
      ⟨.error "boom", .ok none, .ok true, .ok true, .ok none, .ok [], .ok []⟩).1.2 rfl⟩

/-- C5: with an empty endpoint, the Executor fails with the
endpoint-not-configured message and performs neither the reachability
probe nor any object-API call; with a configured endpoint whose probe
reports unreachable, it fails with the cannot-connect message before any
object-API call. -/
theorem C5_precondition_ordering {α : Type} (command : McpCommand)
    (apiKey : Option String) (spaceId : Option String) (api : AnytypeApi α) :
    (executeMcpCommand command "" apiKey spaceId api =
      (execFail "Anytype API endpoint is not configured", ⟨0, 0⟩)) ∧
    (∀ endpoint, endpoint ≠ "" → api.validate = .ok false →
      executeMcpCommand command endpoint apiKey spaceId api =
        (execFail "Cannot connect to Anytype API. Please check your configuration.",
          ⟨1, 0⟩)) := by
  constructor
  · unfold executeMcpCommand
    rw [if_pos rfl]
  · intro endpoint hend hv
    unfold executeMcpCommand
    rw [if_neg hend, hv]

/-- C5 witness: concrete instances of both preconditions. -/
theorem C5_precondition_ordering_witness :
    (executeMcpCommand (α := Nat) ⟨.str "LIST_OBJECTS", .obj [], .str "d"⟩ "" none
        (some "sp") ⟨.ok true, .ok none, .ok true, .ok true, .ok none, .ok [], .ok []⟩ =
      (execFail "Anytype API endpoint is not configured", ⟨0, 0⟩)) ∧
    (executeMcpCommand (α := Nat) ⟨.str "LIST_OBJECTS", .obj [], .str "d"⟩ "http://x" none
        (some "sp") ⟨.ok false, .ok none, .ok true, .ok true, .ok none, .ok [], .ok []⟩ =
      (execFail "Cannot connect to Anytype API. Please check your configuration.",
        ⟨1, 0⟩)) :=
  ⟨(C5_precondition_ordering ⟨.str "LIST_OBJECTS", .obj [], .str "d"⟩ none (some "sp")
      ⟨.ok true, .ok none, .ok true, .ok true, .ok none, .ok [], .ok []⟩).1,
   (C5_precondition_ordering ⟨.str "LIST_OBJECTS", .obj [], .str "d"⟩ none (some "sp")
      ⟨.ok false, .ok none, .ok true, .ok true, .ok none, .ok [], .ok []⟩).2 "http://x"
      (by decide) rfl⟩

theorem isNull_false_of_jsGet {v : Json} {k : String} {q : Json}
    (h : jsGet v k = some q) : v.isNull = false := by
  cases v <;> simp [Json.isNull] <;> simp [jsGet] at h

/-- C6: a SEARCH_OBJECTS command with a truthy query and a selected space
succeeds whenever the underlying search call succeeds, with data
`{query, resultCount, results}` where `resultCount` is the length of the
results list (an empty result list included). -/
theorem C6_search_success {α : Type} (params desc : Json) (endpoint : String)
    (apiKey : Option String) (spaceId : Option String) (api : AnytypeApi α)
    (q : Json) (results : List α)
    (hend : endpoint ≠ "") (hprobe : api.validate = .ok true)
    (hq : jsGet params "query" = some q) (hqt : jsTruthy q = true)
    (hsp : spaceIdTruthy spaceId = true)
    (hsearch : api.searchObjects = .ok results) :
    executeMcpCommand ⟨.str "SEARCH_OBJECTS", params, desc⟩ endpoint apiKey spaceId api =
      ({ success := true, data := some (.search q results.length results), error := none },
        ⟨1, 1⟩) := by
  have hnn : params.isNull = false := isNull_false_of_jsGet hq
  unfold executeMcpCommand
  rw [if_neg hend, hprobe]
  show (catchInto (execSearchObjects ⟨.str "SEARCH_OBJECTS", params, desc⟩ spaceId api).1,
    (⟨1, (execSearchObjects ⟨.str "SEARCH_OBJECTS", params, desc⟩ spaceId api).2⟩ : CallTrace)) = _
  unfold execSearchObjects
  simp only [truthyParam, hq, hqt, hnn, hsp, hsearch, Bool.not_true, Bool.and_self,
    Bool.false_eq_true, if_false, Option.getD_some, catchInto]

/-- C6 witness: the spec's literal example (two results) and the empty
result set, both successful. -/
theorem C6_search_success_witness :
    executeMcpCommand (α := Nat)
        ⟨.str "SEARCH_OBJECTS", .obj [("query", .str "roadmap")], .str "d"⟩
        "http://x" none (some "sp")
        ⟨.ok true, .ok none, .ok true, .ok true, .ok none, .ok [1, 2], .ok []⟩ =
      ({ success := true, data := some (.search (.str "roadmap") 2 [1, 2]), error := none },
        ⟨1, 1⟩) ∧
    executeMcpCommand (α := Nat)
        ⟨.str "SEARCH_OBJECTS", .obj [("query", .str "roadmap")], .str "d"⟩
        "http://x" none (some "sp")
        ⟨.ok true, .ok none, .ok true, .ok true, .ok none, .ok [], .ok []⟩ =
      ({ success := true, data := some (.search (.str "roadmap") 0 []), error := none },
        ⟨1, 1⟩) :=
  ⟨C6_search_success (.obj [("query", .str "roadmap")]) (.str "d") "http://x" none
      (some "sp") ⟨.ok true, .ok none, .ok true, .ok true, .ok none, .ok [1, 2], .ok []⟩
      (.str "roadmap") [1, 2] (by decide) rfl rfl (by decide) (by decide) rfl,
   C6_search_success (.obj [("query", .str "roadmap")]) (.str "d") "http://x" none
      (some "sp") ⟨.ok true, .ok none, .ok true, .ok true, .ok none, .ok [], .ok []⟩
      (.str "roadmap") [] (by decide) rfl rfl (by decide) (by decide) rfl⟩

/-- Truthiness of the parameters an action's dispatch destructures before
it checks the space: the preconditions under which the space check is the
deciding one. -/
def execRequiredOk (action : String) (params : Json) : Bool :=
  !params.isNull &&
    (if action = "CREATE_OBJECT" then
      truthyParam params "name" && truthyParam params "type_key"
    else if action = "SEARCH_OBJECTS" then truthyParam params "query"
    else if action = "LIST_OBJECTS" then true
    else truthyParam params "object_id")

theorem execCreateObject_noSpace {α : Type} (command : McpCommand)
    (api : AnytypeApi α) (hnn : command.parameters.isNull = false)
    (hr : (truthyParam command.parameters "name"
      && truthyParam command.parameters "type_key") = true) :
    execCreateObject command none api =
      (.ok (execFail "No space selected. Please select a space first."), 0) := by
  unfold execCreateObject
  simp [hnn, hr, spaceIdTruthy]

theorem execUpdateObject_noSpace {α : Type} (command : McpCommand)
    (api : AnytypeApi α) (hnn : command.parameters.isNull = false)
    (hr : truthyParam command.parameters "object_id" = true) :
    execUpdateObject command none api = (.ok (execFail "No space selected"), 0) := by
  unfold execUpdateObject
  simp [hnn, hr, spaceIdTruthy]

theorem execDeleteObject_noSpace {α : Type} (command : McpCommand)
    (api : AnytypeApi α) (hnn : command.parameters.isNull = false)
    (hr : truthyParam command.parameters "object_id" = true) :
    execDeleteObject command none api = (.ok (execFail "No space selected"), 0) := by
  unfold execDeleteObject
  simp [hnn, hr, spaceIdTruthy]

theorem execSearchObjects_noSpace {α : Type} (command : McpCommand)
    (api : AnytypeApi α) (hnn : command.parameters.isNull = false)
    (hr : truthyParam command.parameters "query" = true) :
    execSearchObjects command none api = (.ok (execFail "No space selected"), 0) := by
  unfold execSearchObjects
  simp [hnn, hr, spaceIdTruthy]

theorem execListObjects_noSpace {α : Type} (command : McpCommand)
    (api : AnytypeApi α) :
    execListObjects command none api = (.ok (execFail "No space selected"), 0) := by
  unfold execListObjects
  simp [spaceIdTruthy]

theorem execGetObject_noSpace {α : Type} (command : McpCommand)
    (api : AnytypeApi α) (hnn : command.parameters.isNull = false)
    (hr : truthyParam command.parameters "object_id" = true) :
    execGetObject command none api = (.ok (execFail "No space selected"), 0) := by
  unfold execGetObject
  simp [hnn, hr, spaceIdTruthy]

/-- C10: for every action that requires a space, when the `currentSpaceId`
argument is undefined the Executor fails with a no-space-selected error
and makes no object-API operation call, regardless of the command's
parameters (a `space_id` entry included): the space id is never read from
the parameters. -/
theorem C10_space_from_argument_only {α : Type} (action : String)
    (params desc : Json) (endpoint : String) (apiKey : Option String)
    (api : AnytypeApi α)
    (hend : endpoint ≠ "") (hprobe : api.validate = .ok true)
    (hact : action ∈ ["CREATE_OBJECT", "UPDATE_OBJECT", "DELETE_OBJECT",
      "SEARCH_OBJECTS", "LIST_OBJECTS", "GET_OBJECT"])
    (hreq : execRequiredOk action params = true) :
    ∃ msg, executeMcpCommand ⟨.str action, params, desc⟩ endpoint apiKey none api =
        ({ success := false, data := none, error := some msg }, ⟨1, 0⟩) ∧
      strContains msg "No space selected" = true := by
  fin_cases hact
  · unfold execRequiredOk at hreq
    rw [if_pos rfl] at hreq
    simp only [Bool.and_eq_true, Bool.not_eq_true'] at hreq
    refine ⟨"No space selected. Please select a space first.", ?_, by decide⟩
    unfold executeMcpCommand
    rw [if_neg hend, hprobe]
    show (catchInto (execCreateObject ⟨.str "CREATE_OBJECT", params, desc⟩ none api).1,
      (⟨1, (execCreateObject ⟨.str "CREATE_OBJECT", params, desc⟩ none api).2⟩ : CallTrace)) = _
    rw [execCreateObject_noSpace _ api hreq.1 (by
      rw [Bool.and_eq_true]; exact hreq.2)]
    rfl
  · unfold execRequiredOk at hreq
    rw [if_neg (by decide), if_neg (by decide), if_neg (by decide)] at hreq
    simp only [Bool.and_eq_true, Bool.not_eq_true'] at hreq
    refine ⟨"No space selected", ?_, by decide⟩
    unfold executeMcpCommand
    rw [if_neg hend, hprobe]
    show (catchInto (execUpdateObject ⟨.str "UPDATE_OBJECT", params, desc⟩ none api).1,
      (⟨1, (execUpdateObject ⟨.str "UPDATE_OBJECT", params, desc⟩ none api).2⟩ : CallTrace)) = _
    rw [execUpdateObject_noSpace _ api hreq.1 hreq.2]
    rfl
  · unfold execRequiredOk at hreq
    rw [if_neg (by decide), if_neg (by decide), if_neg (by decide)] at hreq
    simp only [Bool.and_eq_true, Bool.not_eq_true'] at hreq
    refine ⟨"No space selected", ?_, by decide⟩
    unfold executeMcpCommand
    rw [if_neg hend, hprobe]
    show (catchInto (execDeleteObject ⟨.str "DELETE_OBJECT", params, desc⟩ none api).1,
      (⟨1, (execDeleteObject ⟨.str "DELETE_OBJECT", params, desc⟩ none api).2⟩ : CallTrace)) = _
    rw [execDeleteObject_noSpace _ api hreq.1 hreq.2]
    rfl
  · unfold execRequiredOk at hreq
    rw [if_neg (by decide), if_pos rfl] at hreq
    simp only [Bool.and_eq_true, Bool.not_eq_true'] at hreq
    refine ⟨"No space selected", ?_, by decide⟩
    unfold executeMcpCommand
    rw [if_neg hend, hprobe]
    show (catchInto (execSearchObjects ⟨.str "SEARCH_OBJECTS", params, desc⟩ none api).1,
      (⟨1, (execSearchObjects ⟨.str "SEARCH_OBJECTS", params, desc⟩ none api).2⟩ : CallTrace)) = _
    rw [execSearchObjects_noSpace _ api hreq.1 hreq.2]
    rfl
  · refine ⟨"No space selected", ?_, by decide⟩
    unfold executeMcpCommand
    rw [if_neg hend, hprobe]
    show (catchInto (execListObjects ⟨.str "LIST_OBJECTS", params, desc⟩ none api).1,
      (⟨1, (execListObjects ⟨.str "LIST_OBJECTS", params, desc⟩ none api).2⟩ : CallTrace)) = _
    rw [execListObjects_noSpace _ api]
    rfl
  · unfold execRequiredOk at hreq
    rw [if_neg (by decide), if_neg (by decide), if_neg (by decide)] at hreq
    simp only [Bool.and_eq_true, Bool.not_eq_true'] at hreq
    refine ⟨"No space selected", ?_, by decide⟩
    unfold executeMcpCommand
    rw [if_neg hend, hprobe]
    show (catchInto (execGetObject ⟨.str "GET_OBJECT", params, desc⟩ none api).1,
      (⟨1, (execGetObject ⟨.str "GET_OBJECT", params, desc⟩ none api).2⟩ : CallTrace)) = _
    rw [execGetObject_noSpace _ api hreq.1 hreq.2]
    rfl

/-- C10 witness: a SEARCH_OBJECTS command whose parameters carry a
`space_id` entry still fails with the no-space error when the space
argument is undefined, with zero object-API operation calls. -/
theorem C10_space_from_argument_only_witness :
    ∃ msg, executeMcpCommand (α := Nat)
        ⟨.str "SEARCH_OBJECTS",
          .obj [("query", .str "roadmap"), ("space_id", .str "sp-123")], .str "d"⟩
        "http://x" none none
        ⟨.ok true, .ok none, .ok true, .ok true, .ok none, .ok [1], .ok [1]⟩ =
        ({ success := false, data := none, error := some msg }, ⟨1, 0⟩) ∧
      strContains msg "No space selected" = true :=
  C10_space_from_argument_only "SEARCH_OBJECTS"
    (.obj [("query", .str "roadmap"), ("space_id", .str "sp-123")]) (.str "d")
    "http://x" none
    ⟨.ok true, .ok none, .ok true, .ok true, .ok none, .ok [1], .ok [1]⟩
    (by decide) rfl (by decide) (by decide)

set_option maxRecDepth 8000 in
/-- C8: for a CREATE_OBJECT command with a valid `type_key`, a `name` of
exactly 256 characters passes validation, and a `name` of 257 characters
is rejected with the maximum-length reason naming 256. -/
theorem C8_name_length_boundary :
    validateMcpCommand
        { action := .str "CREATE_OBJECT",
          parameters := .obj [("name", .str (String.mk (List.replicate 256 'a'))),
            ("type_key", .str "page")],
          description := .str "d" } = .ok { valid := true, error := none } ∧
    validateMcpCommand
        { action := .str "CREATE_OBJECT",
          parameters := .obj [("name", .str (String.mk (List.replicate 257 'a'))),
            ("type_key", .str "page")],
          description := .str "d" } =
      .ok { valid := false, error := some "Parameter name exceeds maximum length of 256" } :=
  ⟨by rfl, by rfl⟩

/-- C9: the classifier is a pure predicate equal to the spec's description
(lower-cased trimmed text starting with a fixed verb or containing a fixed
infix phrase); it accepts "Create a new page about taxes" and rejects
"what do you think about taxes?". -/
theorem C9_classifier :
    (∀ message, shouldProcessAsMcpCommand message = specClassifier message) ∧
    shouldProcessAsMcpCommand "Create a new page about taxes" = true ∧
    shouldProcessAsMcpCommand "what do you think about taxes?" = false := by
  refine ⟨fun message => ?_, by rfl, by rfl⟩
  unfold shouldProcessAsMcpCommand specClassifier commandPhrases
  cases h1 : commandKeywords.any
      (fun keyword => startsWithChars keyword.data (jsTrim (jsToLower message)).data) <;>
    simp [h1, List.any_cons, List.any_nil, Bool.or_assoc]

theorem lookupRules_mem {a : String} {r : ValidationRules}
    (h : (a, r) ∈ COMMAND_VALIDATION_RULES) : lookupRules (.str a) = some r := by
  simp only [COMMAND_VALIDATION_RULES, List.mem_cons, List.not_mem_nil, or_false,
    Prod.mk.injEq] at h
  rcases h with ⟨h1, h2⟩ | ⟨h1, h2⟩ | ⟨h1, h2⟩ | ⟨h1, h2⟩ | ⟨h1, h2⟩ | ⟨h1, h2⟩ | ⟨h1, h2⟩ <;>
    subst h1 <;> subst h2 <;> rfl

theorem validateFields_reject (rules : ValidationRules)
    (fields : List (String × Json))
    (h : ∃ r ∈ rules.required, hasKey fields r = false) :
    ∃ r ∈ rules.required, hasKey fields r = false ∧
      validateFields rules fields =
        { valid := false, error := some ("Missing required parameter: " ++ r) } := by
  have hsome : (rules.required.find? (fun r => !hasKey fields r)).isSome := by
    rw [List.find?_isSome]
    obtain ⟨r, hr, hk⟩ := h
    exact ⟨r, hr, by simp [hk]⟩
  obtain ⟨r0, hfind⟩ := Option.isSome_iff_exists.mp hsome
  refine ⟨r0, List.mem_of_find?_eq_some hfind, ?_, ?_⟩
  · have := List.find?_some hfind
    simpa using this
  · unfold validateFields
    rw [hfind]

theorem validateFields_accept (rules : ValidationRules)
    (fields : List (String × Json))
    (hreq : ∀ r ∈ rules.required, hasKey fields r = true)
    (hvals : ∀ kv ∈ fields, ∃ s, kv.2 = Json.str s ∧ jsTrim s ≠ "" ∧
      ∀ pm ∈ rules.maxLength, pm.1 = kv.1 → s.length ≤ pm.2) :
    validateFields rules fields = { valid := true, error := none } := by
  unfold validateFields
  have h1 : rules.required.find? (fun r => !hasKey fields r) = none := by
    rw [List.find?_eq_none]
    intro r hr
    simp [hreq r hr]
  have h2 : fields.find? isEmptyStrParam = none := by
    rw [List.find?_eq_none]
    intro kv hkv
    obtain ⟨s, hs, hne, _⟩ := hvals kv hkv
    simp [isEmptyStrParam, hs, hne]
  have h3 : rules.maxLength.find? (exceedsMax fields) = none := by
    rw [List.find?_eq_none]
    intro pm hpm
    unfold exceedsMax
    cases hf : fields.find? (fun kv => kv.1 = pm.1) with
    | none => simp
    | some kv =>
      obtain ⟨s, hs, _, hlen⟩ := hvals kv (List.mem_of_find?_eq_some hf)
      have hkey : kv.1 = pm.1 := by simpa using List.find?_some hf
      rcases kv with ⟨k, v⟩
      simp only at hs
      subst hs
      simp only [decide_eq_true_eq]
      exact Nat.not_lt.mpr (hlen pm hpm hkey.symm)
  rw [h1, h2, h3]

/-- C1: for every action in the rule table, a command missing a required
parameter is rejected with a reason naming a missing required parameter;
and a command whose parameters are exactly the required set, each bound to
a non-empty non-all-whitespace string within the declared length limits,
is accepted. -/
theorem C1_validator_totality (action : String) (rules : ValidationRules)
    (hmem : (action, rules) ∈ COMMAND_VALIDATION_RULES)
    (fields : List (String × Json)) (desc : Json) :
    ((∃ r ∈ rules.required, hasKey fields r = false) →
      ∃ r ∈ rules.required, hasKey fields r = false ∧
        validateMcpCommand ⟨.str action, .obj fields, desc⟩ =
          .ok { valid := false, error := some ("Missing required parameter: " ++ r) }) ∧
    (((∀ r ∈ rules.required, hasKey fields r = true) ∧
        (∀ kv ∈ fields, kv.1 ∈ rules.required) ∧
        (∀ kv ∈ fields, ∃ s, kv.2 = Json.str s ∧ jsTrim s ≠ "" ∧
          ∀ pm ∈ rules.maxLength, pm.1 = kv.1 → s.length ≤ pm.2)) →
      validateMcpCommand ⟨.str action, .obj fields, desc⟩ =
        .ok { valid := true, error := none }) := by
  have hlk : lookupRules (.str action) = some rules := lookupRules_mem hmem
  constructor
  · intro h
    obtain ⟨r, hr, hk, hvf⟩ := validateFields_reject rules fields h
    refine ⟨r, hr, hk, ?_⟩
    unfold validateMcpCommand
    rw [hlk]
    simp [hvf]
  · rintro ⟨hpresent, _, hvals⟩
    have hvf := validateFields_accept rules fields hpresent hvals
    unfold validateMcpCommand
    rw [hlk]
    simp [hvf]

/-- C1 witness: CREATE_OBJECT with `name` omitted is rejected naming a
missing parameter; CREATE_OBJECT with exactly `name` and `type_key` bound
to short non-empty strings is accepted. -/
theorem C1_validator_totality_witness :
    (∃ r ∈ (["name", "type_key"] : List String),
      hasKey [("type_key", Json.str "page")] r = false ∧
        validateMcpCommand ⟨.str "CREATE_OBJECT", .obj [("type_key", .str "page")], .str "d"⟩ =
          .ok { valid := false, error := some ("Missing required parameter: " ++ r) }) ∧
    validateMcpCommand
        ⟨.str "CREATE_OBJECT", .obj [("name", .str "Tax notes"), ("type_key", .str "page")],
          .str "d"⟩ =
      .ok { valid := true, error := none } := by
  constructor
  · exact (C1_validator_totality "CREATE_OBJECT"
      { required := ["name", "type_key"],
        optional := ["body", "icon", "properties", "template_id"],
        maxLength := [("name", 256), ("body", 10000)] }
      (List.mem_cons_self _ _) [("type_key", .str "page")] (.str "d")).1
      ⟨"name", by decide, by decide⟩
  · refine (C1_validator_totality "CREATE_OBJECT"
      { required := ["name", "type_key"],
        optional := ["body", "icon", "properties", "template_id"],
        maxLength := [("name", 256), ("body", 10000)] }
      (List.mem_cons_self _ _) [("name", .str "Tax notes"), ("type_key", .str "page")]
      (.str "d")).2
      ⟨by decide, by decide, ?_⟩
    intro kv hkv
    simp only [List.mem_cons, List.not_mem_nil, or_false] at hkv
    rcases hkv with rfl | rfl
    · exact ⟨"Tax notes", rfl, by decide, by decide⟩
    · exact ⟨"page", rfl, by decide, by decide⟩

theorem retryLoop_attempts_le (step : Nat → TranslateRun) (a rem : Nat) :
    (retryLoop step a rem).attempts ≤ rem + 1 := by
  induction rem generalizing a with
  | zero =>
    simp only [retryLoop]
    split_ifs
    · simp
    · simp
    · simp
  | succ n ih =>
    simp only [retryLoop]
    split_ifs
    · simp
    · simp
    · simpa using ih (a + 1)

/-- C2: with `maxRetries = 2` the retry wrapper makes at most 3 attempts;
a validation or parse failure at any attempt is returned right away with
no further attempt; retryable failures are retried with delays
`2 ^ attempt * 1000` milliseconds (1s then 2s), and when all three
attempts fail the last failure is returned. -/
theorem C2_retry_policy (u p k m : String) (ai : Nat → AiOutcome) :
    ((translateWithRetry u p k m ai 2).attempts ≤ 3) ∧
    (((translateToMcpCommand u p k m (ai 0)).result.success = false →
      nonRetryableError (translateToMcpCommand u p k m (ai 0)).result = true →
      (translateWithRetry u p k m ai 2).result =
          (translateToMcpCommand u p k m (ai 0)).result ∧
        (translateWithRetry u p k m ai 2).attempts = 1 ∧
        (translateWithRetry u p k m ai 2).delaysMs = [])) ∧
    (((translateToMcpCommand u p k m (ai 0)).result.success = false →
      nonRetryableError (translateToMcpCommand u p k m (ai 0)).result = false →
      (translateToMcpCommand u p k m (ai 1)).result.success = false →
      nonRetryableError (translateToMcpCommand u p k m (ai 1)).result = true →
      (translateWithRetry u p k m ai 2).result =
          (translateToMcpCommand u p k m (ai 1)).result ∧
        (translateWithRetry u p k m ai 2).attempts = 2 ∧
        (translateWithRetry u p k m ai 2).delaysMs = [1000])) ∧
    (((translateToMcpCommand u p k m (ai 0)).result.success = false →
      nonRetryableError (translateToMcpCommand u p k m (ai 0)).result = false →
      (translateToMcpCommand u p k m (ai 1)).result.success = false →
      nonRetryableError (translateToMcpCommand u p k m (ai 1)).result = false →
      (translateToMcpCommand u p k m (ai 2)).result.success = false →
      (translateWithRetry u p k m ai 2).result =
          (translateToMcpCommand u p k m (ai 2)).result ∧
        (translateWithRetry u p k m ai 2).attempts = 3 ∧
        (translateWithRetry u p k m ai 2).delaysMs = [1000, 2000])) := by
  refine ⟨retryLoop_attempts_le _ 0 2, ?_, ?_, ?_⟩
  · intro h0s h0r
    unfold translateWithRetry
    simp only [retryLoop, h0s, h0r, Bool.false_eq_true, if_false, if_true]
    exact ⟨trivial, trivial, trivial⟩
  · intro h0s h0r h1s h1r
    unfold translateWithRetry
    simp only [retryLoop, h0s, h0r, h1s, h1r, Bool.false_eq_true, if_false, if_true]
    norm_num
  · intro h0s h0r h1s h1r h2s
    unfold translateWithRetry
    simp only [retryLoop, h0s, h0r, h1s, h1r, h2s, Bool.false_eq_true, if_false]
    split_ifs with h2r
    · norm_num
    · norm_num

/-- C2 witness: a rate-limit-style failure is retried to 3 attempts with
delays 1s and 2s; a parse failure returns after one attempt, no delay. -/
theorem C2_retry_policy_witness :
    (translateWithRetry "create x" "gemini" "k" "m" (fun _ => .err "rate_limit") 2).attempts = 3 ∧
    (translateWithRetry "create x" "gemini" "k" "m"
        (fun _ => .err "rate_limit") 2).delaysMs = [1000, 2000] ∧
    (translateWithRetry "create x" "gemini" "k" "m" (fun _ => .ok "no json") 2).attempts = 1 ∧
    (translateWithRetry "create x" "gemini" "k" "m" (fun _ => .ok "no json") 2).delaysMs = [] := by
  have h := (C2_retry_policy "create x" "gemini" "k" "m" (fun _ => .err "rate_limit")).2.2.2
    (by decide) (by decide) (by decide) (by decide) (by decide)
  have h2 := (C2_retry_policy "create x" "gemini" "k" "m" (fun _ => .ok "no json")).2.1
    (by decide) (by decide)
  exact ⟨h.2.1, h.2.2, h2.2.1, h2.2.2⟩

/-- C3 counterexample: with the provider missing (and a non-empty user
command), every attempt fails with the configuration-incomplete message
before any network call, but `translateWithRetry` does NOT return after a
single attempt: the failure reason matches neither "Validation failed"
nor "Failed to parse", so it is retried — 3 attempts with 1s and 2s
waits, contradicting the claim. -/
theorem C3_config_retry_counterexample :
    (translateWithRetry "create a page" "" "key" "model" (fun _ => .ok "ignored") 2).result.error =
        some "AI provider configuration is incomplete" ∧
    (translateWithRetry "create a page" "" "key" "model" (fun _ => .ok "ignored") 2).aiCalls = 0 ∧
    (translateWithRetry "create a page" "" "key" "model" (fun _ => .ok "ignored") 2).attempts = 3 ∧
    ¬ (translateWithRetry "create a page" "" "key" "model"
        (fun _ => .ok "ignored") 2).attempts = 1 ∧
    (translateWithRetry "create a page" "" "key" "model" (fun _ => .ok "ignored") 2).delaysMs =
      [1000, 2000] :=
  ⟨rfl, rfl, rfl, by decide, rfl⟩

theorem retryLoop_const_fail (run : TranslateRun)
    (hs : run.result.success = false) (hr : nonRetryableError run.result = false)
    (a rem : Nat) :
    retryLoop (fun _ => run) a rem =
      { result := run.result, attempts := rem + 1,
        aiCalls := (rem + 1) * run.aiCalls,
        delaysMs := (List.range rem).map (fun i => 2 ^ (a + i) * 1000) } := by
  induction rem generalizing a with
  | zero => simp [retryLoop, hs, hr]
  | succ n ih =>
    simp only [retryLoop, hs, hr, Bool.false_eq_true, if_false, ih (a + 1)]
    have hcalls : run.aiCalls + (n + 1) * run.aiCalls = (n + 1 + 1) * run.aiCalls := by ring
    have hdel : (2 ^ a * 1000) :: (List.range n).map (fun i => 2 ^ (a + 1 + i) * 1000) =
        (List.range (n + 1)).map (fun i => 2 ^ (a + i) * 1000) := by
      rw [List.range_succ_eq_map, List.map_cons, List.map_map]
      simp only [Nat.add_zero, List.cons.injEq, true_and]
      refine List.map_congr_left (fun i _ => ?_)
      simp only [Function.comp_apply, Nat.succ_eq_add_one]
      have hexp : a + 1 + i = a + (i + 1) := by omega
      rw [hexp]
    rw [hcalls, hdel]

/-- C3 amended: a missing provider, API key, or model makes every attempt
fail immediately with the configuration-incomplete message and zero
network calls; however `translateWithRetry` treats this failure as
retryable, so it re-attempts the full `retries + 1` times with
exponential waits before returning that failure (instead of returning
after a single attempt). -/
theorem C3_config_error_amended (u p k m : String) (ai : Nat → AiOutcome)
    (retries : Nat) (hu : jsTrim u ≠ "") (hcfg : p = "" ∨ k = "" ∨ m = "") :
    (translateWithRetry u p k m ai retries).result.success = false ∧
    (translateWithRetry u p k m ai retries).result.error =
      some "AI provider configuration is incomplete" ∧
    (translateWithRetry u p k m ai retries).aiCalls = 0 ∧
    (translateWithRetry u p k m ai retries).attempts = retries + 1 ∧
    (translateWithRetry u p k m ai retries).delaysMs =
      (List.range retries).map (fun i => 2 ^ i * 1000) := by
  have hstep : ∀ n, translateToMcpCommand u p k m (ai n) =
      ⟨⟨false, some "AI provider configuration is incomplete", none, none⟩, 0⟩ := by
    intro n
    unfold translateToMcpCommand
    rw [if_neg hu, if_pos hcfg]
  unfold translateWithRetry
  rw [funext hstep, retryLoop_const_fail _ rfl (by decide) 0 retries]
  refine ⟨rfl, rfl, by simp, rfl, by simp⟩

/-- C3 witness for the amended statement: concrete configuration-error
run with 3 attempts, no network calls, and 1s/2s waits. -/
theorem C3_config_error_amended_witness :
    (translateWithRetry "create a page" "" "key" "model" (fun _ => .err "x") 2).result.error =
        some "AI provider configuration is incomplete" ∧
    (translateWithRetry "create a page" "" "key" "model" (fun _ => .err "x") 2).aiCalls = 0 ∧
    (translateWithRetry "create a page" "" "key" "model" (fun _ => .err "x") 2).attempts = 3 ∧
    (translateWithRetry "create a page" "" "key" "model" (fun _ => .err "x") 2).delaysMs =
      [1000, 2000] := by
  have h := C3_config_error_amended "create a page" "" "key" "model" (fun _ => .err "x") 2
    (by decide) (Or.inl rfl)
  exact ⟨h.2.1, h.2.2.1, h.2.2.2.1, by rw [h.2.2.2.2]; rfl⟩

/-- Spec-level match-existence condition of the extraction regex: some
opening brace is followed (strictly later) by some closing brace. -/
def hasBracePair : List Char → Bool
  | [] => false
  | c :: rest => (c = '{' && rest.contains '}') || hasBracePair rest

theorem extractJsonSpan_eq_none (cs : List Char) (h : hasBracePair cs = false) :
    extractJsonSpan cs = none := by
  induction cs with
  | nil => rfl
  | cons c rest ih =>
    unfold hasBracePair at h
    rw [Bool.or_eq_false_iff] at h
    unfold extractJsonSpan
    rw [if_neg (by simp only [h.1]; exact Bool.false_ne_true), ih h.2]

/-- C4 counterexample: a reply holding two JSON objects separated by
prose.  The first brace-balanced JSON substring parses to an object with
`action` and `parameters` (so the claim predicts a command), but the
greedy extraction spans from the first opening brace to the LAST closing
brace, which is not valid JSON, and `parseAiResponse` returns `none`. -/
theorem C4_parse_counterexample :
    parseAiResponse "\x7b\"action\":\"LIST_OBJECTS\",\"parameters\":\x7b\x7d\x7d" =
      some { action := .str "LIST_OBJECTS", parameters := .obj [],
             description := .str "No description provided" } ∧
    extractJsonSpan
        ("x\x7b\"action\":\"LIST_OBJECTS\",\"parameters\":\x7b\x7d\x7d y \x7b\"a\":1\x7d").data =
      some ("\x7b\"action\":\"LIST_OBJECTS\",\"parameters\":\x7b\x7d\x7d y \x7b\"a\":1\x7d").data ∧
    parseAiResponse "x\x7b\"action\":\"LIST_OBJECTS\",\"parameters\":\x7b\x7d\x7d y \x7b\"a\":1\x7d" =
      none :=
  ⟨rfl, rfl, rfl⟩

/-- C4 amended: `parseAiResponse` extracts the span from the first opening
brace (followed by some later closing brace) to the last closing brace of
the reply, tolerating surrounding prose and code fences around a single
object; whenever the reply has no such brace pair, or the extracted span
is not parseable JSON, it returns `none` rather than throwing. -/
theorem C4_parse_extraction :
    (parseAiResponse
        "Sure! ```json\n\x7b\"action\":\"LIST_OBJECTS\",\"parameters\":\x7b\x7d,\"description\":\"x\"\x7d\n```" =
      some { action := .str "LIST_OBJECTS", parameters := .obj [],
             description := .str "x" }) ∧
    (∀ s : String, hasBracePair s.data = false → parseAiResponse s = none) ∧
    (∀ (s : String) (span : List Char), extractJsonSpan s.data = some span →
      jsonParse (String.mk span) = none → parseAiResponse s = none) := by
  refine ⟨rfl, ?_, ?_⟩
  · intro s h
    unfold parseAiResponse
    split_ifs
    · rfl
    · rw [extractJsonSpan_eq_none s.data h]
  · intro s span hspan hparse
    unfold parseAiResponse
    split_ifs
    · rfl
    · simp only [hspan, hparse]

/-- C4 witness for the amended statement: a brace-free reply and the
two-object reply both yield `none` through the amended theorem. -/
theorem C4_parse_extraction_witness :
    parseAiResponse "no json here at all" = none ∧
    parseAiResponse "a\x7b\"x\":1\x7d b \x7b\"y\":2\x7d" = none :=
  ⟨C4_parse_extraction.2.1 "no json here at all" (by decide),
   C4_parse_extraction.2.2 "a\x7b\"x\":1\x7d b \x7b\"y\":2\x7d"
     ("\x7b\"x\":1\x7d b \x7b\"y\":2\x7d").data rfl rfl⟩
